import Mathlib

/-
Verification of the chat protocol engine in src/chat.c (fb-adb).

The engine drives an interactive shell over two byte streams.  We embed it
shallowly: a session is the list of bytes still unread on the inbound channel
together with the list of bytes written so far to the outbound channel.
Bytes are natural numbers (stream bytes are 0..255).  Writes to the outbound
channel are unbuffered in the model, so fputs followed by fflush is simply an
append; a fatal `die` call is an `Except.error` carrying the diagnostic.
`ungetc` is modelled by prepending the byte back onto the inbound list.
-/

namespace FbAdbChat

/-- A chat session: `inp` is the unread inbound bytes (`cc->from`), `out` is
the bytes written so far to the child (`cc->to`). -/
structure Chat where
  inp : List Nat
  out : List Nat
deriving DecidableEq, Repr

/-- The fatal-error diagnostics of chat.c: `lostConnection` is `chat_die`
("lost connection to child"), `mismatch expected actual` is the diagnostic of
`chat_expect`, and `prePromptText t` is the `die(ECOMM, "%s", ...)` of
`chat_swallow_prompt` reporting the trimmed pre-prompt buffer `t`. -/
inductive ChatErr where
  | lostConnection : ChatErr
  | mismatch : Nat → Nat → ChatErr
  | prePromptText : List Nat → ChatErr
deriving DecidableEq, Repr

/-- `chat_getc` (chat.c:35-43): read one byte; end-of-input is fatal. -/
def chat_getc (cc : Chat) : Except ChatErr (Nat × Chat) :=
  match cc.inp with
  | [] => .error .lostConnection
  | c :: rest => .ok (c, { cc with inp := rest })

/-- `chat_expect` (chat.c:45-57): read one byte and require it to equal
`expected`, dying with a mismatch diagnostic otherwise. -/
def chat_expect (cc : Chat) (expected : Nat) : Except ChatErr Chat :=
  match chat_getc cc with
  | .error e => .error e
  | .ok (c, cc2) =>
      if c = expected then .ok cc2 else .error (.mismatch expected c)

/-- `chat_expect_maybe` (chat.c:59-68): read one byte; on a match consume it
and return true, otherwise `ungetc` the byte back and return false. -/
def chat_expect_maybe (cc : Chat) (expected : Nat) : Except ChatErr (Bool × Chat) :=
  match chat_getc cc with
  | .error e => .error e
  | .ok (c, cc2) =>
      if c = expected then .ok (true, cc2)
      else .ok (false, { cc2 with inp := c :: cc2.inp })

/-- The scanner states of `chat_swallow_prompt` (chat.c:77):
`S_NORMAL`, `S_AFTER_ESC`, `S_AFTER_CSI`. -/
inductive ScanState where
  | normal : ScanState
  | afterEsc : ScanState
  | afterCsi : ScanState
deriving DecidableEq, Repr

/-- The loop state of `chat_swallow_prompt`: scanner mode, the unsigned
`csi_arg`, the `pre_prompt` growable string, and the bytes written to the
outbound channel during the scan. -/
structure ScanSt where
  state : ScanState
  arg : Nat
  pre : List Nat
  out : List Nat
deriving DecidableEq, Repr

/-- The reply `"\ESC[0n"` (chat.c:125) sent for device-status query 5. -/
def escOkReply : List Nat := [27, 91, 48, 110]

/-- The reply `"\ESC[25;80R"` (chat.c:128) sent for cursor-position query 6. -/
def escCursorReply : List Nat := [27, 91, 50, 53, 59, 56, 48, 82]

/-- One iteration of the `chat_swallow_prompt` loop body (chat.c:88-140) on
byte `c`: `none` means the loop breaks (prompt byte `#` = 35 or `$` = 36 was
read), `some st2` is the updated loop state.  `csi_arg` is a C `unsigned`,
so digit accumulation is taken modulo 2^32; writing a reply appends to the
outbound bytes (the model's channel is unbuffered, so the `fflush` at
chat.c:131 is implicit). -/
def scan_step (st : ScanSt) (c : Nat) : Option ScanSt :=
  if c = 35 ∨ c = 36 then
    none
  else
    some (match st.state with
      | .normal =>
          if c = 27 then { st with state := .afterEsc }
          else { st with pre := st.pre ++ [c] }
      | .afterEsc =>
          if c = 91 then { st with state := .afterCsi, arg := 0 }
          else { st with state := .normal }
      | .afterCsi =>
          if 48 ≤ c ∧ c ≤ 57 then
            { st with arg := (10 * st.arg + (c - 48)) % 2 ^ 32 }
          else if c = 110 then
            { st with state := .normal,
                      out := st.out ++
                        (if st.arg = 5 then escOkReply
                         else if st.arg = 6 then escCursorReply
                         else []) }
          else
            { st with state := .normal })

/-- Modelled from the spec: `growable_string_trim_trailing_whitespace` lives
in util.c, outside the given sources; per the spec it trims trailing
whitespace, taken here as the C `isspace` set (space, tab, LF, VT, FF, CR). -/
def isSpaceByte (c : Nat) : Bool :=
  c = 32 || c = 9 || c = 10 || c = 11 || c = 12 || c = 13

/-- Modelled from the spec: trim trailing whitespace from a byte string. -/
def trimTrailingWhitespace (s : List Nat) : List Nat :=
  (s.reverse.dropWhile isSpaceByte).reverse

/-- The `for (;;)` loop of `chat_swallow_prompt` (chat.c:80-141).  On
end-of-input (chat.c:82-87) the trimmed pre-prompt buffer decides between the
generic lost-connection death and the death reporting the buffer.  On a
prompt byte the loop breaks, yielding the remaining inbound bytes and the
bytes written during the scan. -/
def swallow_loop : List Nat → ScanSt → Except ChatErr (List Nat × List Nat)
  | [], st =>
      let t := trimTrailingWhitespace st.pre
      if t = [] then .error .lostConnection
      else .error (.prePromptText t)
  | c :: rest, st =>
      match scan_step st c with
      | none => .ok (rest, st.out)
      | some st2 => swallow_loop rest st2

/-- `chat_swallow_prompt` (chat.c:70-144): run the scanner loop from the
initial state, then require the byte after the prompt to be a space
(chat.c:143). -/
def chat_swallow_prompt (cc : Chat) : Except ChatErr Chat :=
  match swallow_loop cc.inp ⟨.normal, 0, [], []⟩ with
  | .error e => .error e
  | .ok (rest, written) =>
      chat_expect { inp := rest, out := cc.out ++ written } 32

/-- The echo-verification loop `while (*what) chat_expect(cc, *what++);`
(chat.c:178-179). -/
def expect_echo : Chat → List Nat → Except ChatErr Chat
  | cc, [] => .ok cc
  | cc, c :: rest =>
      match chat_expect cc c with
      | .error e => .error e
      | .ok cc2 => expect_echo cc2 rest

/-- The line-terminator check of `chat_talk_at` (chat.c:182-184): a carriage
return, an optional second carriage return, then a line feed. -/
def expect_eol (cc : Chat) : Except ChatErr Chat :=
  match chat_expect cc 13 with
  | .error e => .error e
  | .ok cc2 =>
      match chat_expect_maybe cc2 13 with
      | .error e => .error e
      | .ok (_, cc3) => chat_expect cc3 10

/-- The status-query race block of `chat_talk_at` (chat.c:165-174): when the
prompt was swallowed and `what` is non-empty, try the first command byte with
the recoverable primitive; on mismatch, if the next byte is ESC demand the
rest of `"\ESC[6n"` exactly, replying nothing.  Returns the suffix of `what`
still to be echo-verified together with the updated session. -/
def chat_talk_race (cc : Chat) (what : List Nat) (swallowed : Bool) :
    Except ChatErr (List Nat × Chat) :=
  if swallowed then
    match what with
    | [] => .ok ([], cc)
    | w :: ws =>
        match chat_expect_maybe cc w with
        | .error e => .error e
        | .ok (true, cc2) => .ok (ws, cc2)
        | .ok (false, cc2) =>
            match chat_expect_maybe cc2 27 with
            | .error e => .error e
            | .ok (true, cc3) =>
                (match chat_expect cc3 91 with
                 | .error e => .error e
                 | .ok cc4 =>
                     match chat_expect cc4 54 with
                     | .error e => .error e
                     | .ok cc5 =>
                         match chat_expect cc5 110 with
                         | .error e => .error e
                         | .ok cc6 => .ok (w :: ws, cc6))
            | .ok (false, cc3) => .ok (w :: ws, cc3)
  else
    .ok (what, cc)

/-- `chat_talk_at` (chat.c:146-185): optionally swallow the prompt, write the
command and a newline (flushed; the model's channel is unbuffered), handle
the status-query race, verify the echo, and verify the line terminator.
`swallowed` models `flags & CHAT_SWALLOW_PROMPT`. -/
def chat_talk_at (cc : Chat) (what : List Nat) (swallowed : Bool) :
    Except ChatErr Chat :=
  match (if swallowed then chat_swallow_prompt cc else .ok cc) with
  | .error e => .error e
  | .ok cc2 =>
      match chat_talk_race { cc2 with out := cc2.out ++ what ++ [10] } what swallowed with
      | .error e => .error e
      | .ok (remaining, cc3) =>
          match expect_echo cc3 remaining with
          | .error e => .error e
          | .ok cc4 => expect_eol cc4

/-! ## Basic lemmas about the read primitives -/

theorem chat_expect_cons_self (c : Nat) (s o : List Nat) :
    chat_expect ⟨c :: s, o⟩ c = .ok ⟨s, o⟩ := by
  simp [chat_expect, chat_getc]

theorem chat_expect_cons_ne (c e : Nat) (s o : List Nat) (h : c ≠ e) :
    chat_expect ⟨c :: s, o⟩ e = .error (.mismatch e c) := by
  simp [chat_expect, chat_getc, h]

theorem chat_expect_maybe_cons (e c : Nat) (s o : List Nat) :
    chat_expect_maybe ⟨c :: s, o⟩ e =
      if c = e then .ok (true, ⟨s, o⟩) else .ok (false, ⟨c :: s, o⟩) := by
  by_cases h : c = e <;> simp [chat_expect_maybe, chat_getc, h]

theorem expect_echo_append (what : List Nat) :
    ∀ s o, expect_echo ⟨what ++ s, o⟩ what = .ok ⟨s, o⟩ := by
  induction what with
  | nil => intro s o; rfl
  | cons c cs ih =>
      intro s o
      simp only [List.cons_append, expect_echo, chat_expect_cons_self]
      exact ih s o

theorem expect_echo_cons_append (w : Nat) (ws s o : List Nat) :
    expect_echo ⟨w :: (ws ++ s), o⟩ (w :: ws) = .ok ⟨s, o⟩ := by
  have h := expect_echo_append (w :: ws) s o
  simpa using h

theorem expect_eol_crlf (r o : List Nat) :
    expect_eol ⟨13 :: 10 :: r, o⟩ = .ok ⟨r, o⟩ := by
  simp [expect_eol, chat_expect_cons_self, chat_expect_maybe_cons]

theorem expect_eol_crcrlf (r o : List Nat) :
    expect_eol ⟨13 :: 13 :: 10 :: r, o⟩ = .ok ⟨r, o⟩ := by
  simp [expect_eol, chat_expect_cons_self, chat_expect_maybe_cons]

/-! ## Claim theorems -/

/-- Claim C1: for every command `what` containing no newline (and, being a C
string, no NUL) bytes, `chat_talk_at` without the prompt-swallow flag against
an inbound stream whose next bytes are exactly `what` followed by CR LF
returns normally, having consumed exactly those bytes and written exactly the
command plus a newline. -/
theorem talk_plain_echo (what rest o : List Nat)
    (hnl : 10 ∉ what) (hz : 0 ∉ what) :
    chat_talk_at ⟨what ++ 13 :: 10 :: rest, o⟩ what false =
      .ok ⟨rest, o ++ what ++ [10]⟩ := by
  simp [chat_talk_at, chat_talk_race, expect_echo_append, expect_eol_crlf]

/-- Witness for C1: the command "ls". -/
theorem talk_plain_echo_witness :
    chat_talk_at ⟨[108, 115, 13, 10], []⟩ [108, 115] false =
      .ok ⟨[], [108, 115, 10]⟩ :=
  talk_plain_echo [108, 115] [] [] (by decide) (by decide)

/-- Claim C2: with the prompt-swallow flag, for a non-empty command whose
first byte `w` is not ESC: if after the prompt `"$ "` the inbound stream
carries exactly ESC `[` `6` `n` and then the full echo with CR LF,
`chat_talk_at` absorbs the query without writing any reply (the outbound
bytes are exactly the command plus newline) and verifies the echo from its
first character; and if the first inbound byte after sending matches neither
`w` nor ESC, the exchange dies with a mismatch diagnostic. -/
theorem talk_status_query_race (w : Nat) (ws rest o : List Nat) (b : Nat)
    (hw : w ≠ 27) (hb1 : b ≠ w) (hb2 : b ≠ 27) :
    chat_talk_at ⟨36 :: 32 :: 27 :: 91 :: 54 :: 110 :: ((w :: ws) ++ 13 :: 10 :: rest), o⟩
        (w :: ws) true = .ok ⟨rest, o ++ (w :: ws) ++ [10]⟩ ∧
    chat_talk_at ⟨36 :: 32 :: b :: rest, o⟩ (w :: ws) true =
      .error (.mismatch w b) := by
  constructor
  · simp [chat_talk_at, chat_swallow_prompt, swallow_loop, scan_step,
      chat_expect_cons_self, chat_talk_race, chat_expect_maybe_cons,
      Ne.symm hw, expect_echo_cons_append, expect_eol_crlf]
  · simp [chat_talk_at, chat_swallow_prompt, swallow_loop, scan_step,
      chat_expect_cons_self, chat_talk_race, chat_expect_maybe_cons,
      hb1, hb2, expect_echo, chat_expect_cons_ne]

/-- Witness for C2: command "ls" after prompt, with the query branch taken,
and a mismatching first byte 63 for the fatal branch. -/
theorem talk_status_query_race_witness :
    chat_talk_at ⟨[36, 32, 27, 91, 54, 110, 108, 115, 13, 10], []⟩ [108, 115] true =
      .ok ⟨[], [108, 115, 10]⟩ ∧
    chat_talk_at ⟨[36, 32, 63], []⟩ [108, 115] true =
      .error (.mismatch 108 63) :=
  talk_status_query_race 108 [115] [] [] 63 (by decide) (by decide) (by decide)

/-- Claim C3: in the CSI state, the terminator byte `n` makes the scanner
write exactly ESC `[` `0` `n` when the accumulated argument is 5, exactly
ESC `[` `2` `5` `;` `8` `0` `R` when it is 6, and nothing otherwise, always
returning to the NORMAL state (the model's outbound channel is unbuffered,
so the flush is implicit in the append). -/
theorem scanner_dsr_replies (st : ScanSt) (h : st.state = .afterCsi) :
    (st.arg = 5 → scan_step st 110 =
      some { st with state := .normal, out := st.out ++ [27, 91, 48, 110] }) ∧
    (st.arg = 6 → scan_step st 110 =
      some { st with state := .normal,
                     out := st.out ++ [27, 91, 50, 53, 59, 56, 48, 82] }) ∧
    (st.arg ≠ 5 → st.arg ≠ 6 → scan_step st 110 =
      some { st with state := .normal }) := by
  refine ⟨fun h5 => ?_, fun h6 => ?_, fun h5 h6 => ?_⟩
  · simp [scan_step, h, h5, escOkReply]
  · simp [scan_step, h, h6, escCursorReply]
  · simp [scan_step, h, h5, h6]

/-- Witness for C3: argument 5 elicits the "I am OK" reply. -/
theorem scanner_dsr_replies_witness :
    scan_step ⟨.afterCsi, 5, [], []⟩ 110 =
      some ⟨.normal, 5, [], [27, 91, 48, 110]⟩ :=
  ((scanner_dsr_replies ⟨.afterCsi, 5, [], []⟩ rfl).1 rfl).trans (by decide)

/-- Claim C4: a `#` (35) or `$` (36) byte makes the scanner loop stop
immediately in every state, and `chat_swallow_prompt` then requires the very
next inbound byte to be a single space (32), dying otherwise. -/
theorem prompt_char_always_wins (c : Nat) (hc : c = 35 ∨ c = 36) :
    (∀ (st : ScanSt) (rest : List Nat),
        swallow_loop (c :: rest) st = .ok (rest, st.out)) ∧
    (∀ (d : Nat) (s o : List Nat),
        chat_swallow_prompt ⟨c :: d :: s, o⟩ =
          if d = 32 then .ok ⟨s, o⟩ else .error (.mismatch 32 d)) := by
  have hstep : ∀ st : ScanSt, scan_step st c = none := by
    intro st; simp [scan_step, hc]
  constructor
  · intro st rest
    simp [swallow_loop, hstep]
  · intro d s o
    by_cases hd : d = 32
    · subst hd
      simp [chat_swallow_prompt, swallow_loop, hstep, chat_expect_cons_self]
    · simp [chat_swallow_prompt, swallow_loop, hstep, hd,
        chat_expect_cons_ne d 32 s o hd]

/-- Witness for C4: a `$` prompt followed by a space. -/
theorem prompt_char_always_wins_witness :
    chat_swallow_prompt ⟨[36, 32, 99], []⟩ = .ok ⟨[99], []⟩ :=
  ((prompt_char_always_wins 36 (Or.inr rfl)).2 32 [99] []).trans rfl

theorem swallow_loop_plain (s : List Nat) :
    ∀ st : ScanSt, st.state = .normal → 27 ∉ s → 35 ∉ s → 36 ∉ s →
      swallow_loop s st = swallow_loop [] { st with pre := st.pre ++ s } := by
  induction s with
  | nil =>
      intro st _ _ _ _
      simp
  | cons c cs ih =>
      intro st hst h27 h35 h36
      have hc27 : c ≠ 27 := fun h => h27 (h ▸ List.mem_cons_self c cs)
      have hc35 : c ≠ 35 := fun h => h35 (h ▸ List.mem_cons_self c cs)
      have hc36 : c ≠ 36 := fun h => h36 (h ▸ List.mem_cons_self c cs)
      have hstep : scan_step st c = some { st with pre := st.pre ++ [c] } := by
        simp [scan_step, hst, hc27, hc35, hc36]
      calc swallow_loop (c :: cs) st
          = swallow_loop cs { st with pre := st.pre ++ [c] } := by
            simp [swallow_loop, hstep]
        _ = swallow_loop [] { st with pre := (st.pre ++ [c]) ++ cs } :=
            ih { st with pre := st.pre ++ [c] } hst
              (fun h => h27 (List.mem_cons_of_mem c h))
              (fun h => h35 (List.mem_cons_of_mem c h))
              (fun h => h36 (List.mem_cons_of_mem c h))
        _ = swallow_loop [] { st with pre := st.pre ++ c :: cs } := by
            simp

/-- Claim C5: when the scanner hits end-of-input before any prompt byte it
dies; the diagnostic is the trimmed pre-prompt buffer when that is non-empty
and the generic lost-connection message otherwise.  Stated both for the loop
at end-of-input with an arbitrary accumulated buffer, and for
`chat_swallow_prompt` on a plain-text stream (no ESC and no prompt bytes),
whose accumulated buffer is the whole stream. -/
theorem eof_diagnostic (s o : List Nat)
    (h27 : 27 ∉ s) (h35 : 35 ∉ s) (h36 : 36 ∉ s) :
    (∀ st : ScanSt, swallow_loop [] st =
      (if trimTrailingWhitespace st.pre = [] then .error .lostConnection
       else .error (.prePromptText (trimTrailingWhitespace st.pre)))) ∧
    chat_swallow_prompt ⟨s, o⟩ =
      (if trimTrailingWhitespace s = [] then .error .lostConnection
       else .error (.prePromptText (trimTrailingWhitespace s))) := by
  constructor
  · intro st
    simp [swallow_loop]
  · rw [chat_swallow_prompt,
      swallow_loop_plain s ⟨.normal, 0, [], []⟩ rfl h27 h35 h36]
    by_cases ht : trimTrailingWhitespace s = [] <;>
      simp [swallow_loop, ht]

/-- Witness for C5: the child prints "boot failed " and dies; the diagnostic
is "boot failed" with the trailing space trimmed. -/
theorem eof_diagnostic_witness :
    chat_swallow_prompt
        ⟨[98, 111, 111, 116, 32, 102, 97, 105, 108, 101, 100, 32], []⟩ =
      .error (.prePromptText [98, 111, 111, 116, 32, 102, 97, 105, 108, 101, 100]) :=
  ((eof_diagnostic [98, 111, 111, 116, 32, 102, 97, 105, 108, 101, 100, 32] []
    (by decide) (by decide) (by decide)).2).trans (by rfl)

theorem expect_eol_ok_iff (t o : List Nat) :
    (∃ cc, expect_eol ⟨t, o⟩ = .ok cc) ↔
      (∃ r, t = 13 :: 10 :: r ∨ t = 13 :: 13 :: 10 :: r) := by
  match t with
  | [] =>
      simp [expect_eol, chat_expect, chat_getc]
  | c :: t2 =>
      by_cases hc : c = 13
      · subst hc
        match t2 with
        | [] =>
            simp [expect_eol, chat_expect_cons_self, chat_expect_maybe,
              chat_expect, chat_getc]
        | d :: t3 =>
            by_cases hd : d = 13
            · subst hd
              match t3 with
              | [] =>
                  simp [expect_eol, chat_expect_cons_self,
                    chat_expect_maybe_cons, chat_expect, chat_getc]
              | e :: r =>
                  by_cases he : e = 10
                  · subst he
                    simp [expect_eol_crcrlf]
                  · simp [expect_eol, chat_expect_cons_self,
                      chat_expect_maybe_cons, chat_expect_cons_ne e 10 r o he,
                      he, Ne.symm he]
            · by_cases hd10 : d = 10
              · subst hd10
                simp [expect_eol_crlf]
              · simp [expect_eol, chat_expect_cons_self,
                  chat_expect_maybe_cons, hd,
                  chat_expect_cons_ne d 10 t3 o hd10, hd10, Ne.symm hd10]
      · simp [expect_eol, chat_expect_cons_ne c 13 t2 o hc, hc, Ne.symm hc]

/-- Claim C6: after verifying the echoed command bytes, `chat_talk_at`
returns normally exactly when the next inbound bytes are CR LF or CR CR LF;
any other line-ending pattern is fatal. -/
theorem talk_line_terminators (what t o : List Nat) :
    (∃ cc, chat_talk_at ⟨what ++ t, o⟩ what false = .ok cc) ↔
      (∃ r, t = 13 :: 10 :: r ∨ t = 13 :: 13 :: 10 :: r) := by
  have h1 : chat_talk_at ⟨what ++ t, o⟩ what false =
      expect_eol ⟨t, o ++ what ++ [10]⟩ := by
    simp [chat_talk_at, chat_talk_race, expect_echo_append]
  rw [h1]
  exact expect_eol_ok_iff t (o ++ what ++ [10])

/-- Claim C7: on a non-empty inbound stream, `chat_expect_maybe` consumes the
byte and returns true when it matches, and otherwise pushes the byte back
(leaving the channel as it was, so the next read returns that same byte) and
returns false, with no fatal error on the mismatch. -/
theorem expect_maybe_recoverable (e c : Nat) (s o : List Nat) :
    chat_expect_maybe ⟨c :: s, o⟩ e =
      (if c = e then .ok (true, ⟨s, o⟩) else .ok (false, ⟨c :: s, o⟩)) ∧
    (c ≠ e → chat_getc ⟨c :: s, o⟩ = .ok (c, ⟨s, o⟩)) :=
  ⟨chat_expect_maybe_cons e c s o, fun _ => rfl⟩

/-- Witness for C7: expecting 98 but reading 97 leaves 97 on the channel. -/
theorem expect_maybe_recoverable_witness :
    chat_expect_maybe ⟨[97], []⟩ 98 = .ok (false, ⟨[97], []⟩) ∧
    chat_getc ⟨[97], []⟩ = .ok (97, ⟨[], []⟩) :=
  ⟨((expect_maybe_recoverable 98 97 [] []).1).trans (by rfl),
   (expect_maybe_recoverable 98 97 [] []).2 (by decide)⟩

/-- Claim C8: in state AFTER_ESCAPE a byte other than `[` (and other than a
prompt byte, which stops the loop instead) sends the scanner back to NORMAL
with the byte dropped, not appended; and across every single step of the
scanner, the pre-prompt buffer grows only on a byte read in state NORMAL
that is neither ESC nor a prompt byte, and then exactly by that byte. -/
theorem scanner_esc_abandoned_pre_growth :
    (∀ (st : ScanSt) (c : Nat), st.state = .afterEsc →
        c ≠ 91 → c ≠ 35 → c ≠ 36 →
        scan_step st c = some { st with state := .normal }) ∧
    (∀ (st : ScanSt) (c : Nat) (st2 : ScanSt), scan_step st c = some st2 →
        st2.pre = st.pre ∨
          (st2.pre = st.pre ++ [c] ∧ st.state = .normal ∧
            c ≠ 27 ∧ c ≠ 35 ∧ c ≠ 36)) := by
  constructor
  · intro st c hst h91 h35 h36
    simp [scan_step, hst, h91, h35, h36]
  · intro st c st2 h
    obtain ⟨sstate, sarg, spre, sout⟩ := st
    by_cases hp : c = 35 ∨ c = 36
    · simp [scan_step, hp] at h
    · cases sstate with
      | normal =>
          by_cases h27 : c = 27
          · left
            simp [scan_step, hp, h27] at h
            simp [← h]
          · right
            simp [scan_step, hp, h27] at h
            refine ⟨by simp [← h], rfl, h27, ?_, ?_⟩ <;>
              (intro hc; exact hp (by simp [hc]))
      | afterEsc =>
          left
          by_cases h91 : c = 91 <;>
            · simp [scan_step, hp, h91] at h
              simp [← h]
      | afterCsi =>
          left
          by_cases hdig : 48 ≤ c ∧ c ≤ 57
          · simp [scan_step, hp, hdig] at h
            simp [← h]
          · by_cases hn : c = 110
            · simp [scan_step, hp, hdig, hn] at h
              simp [← h]
            · simp [scan_step, hp, hdig, hn] at h
              simp [← h]

/-- Witness for C8: byte 65 in state AFTER_ESCAPE is dropped and the scanner
returns to NORMAL. -/
theorem scanner_esc_abandoned_pre_growth_witness :
    scan_step ⟨.afterEsc, 3, [97], []⟩ 65 = some ⟨.normal, 3, [97], []⟩ :=
  scanner_esc_abandoned_pre_growth.1 ⟨.afterEsc, 3, [97], []⟩ 65 rfl
    (by decide) (by decide) (by decide)

/-- Claim C9: at end-of-input, `chat_expect_maybe` dies with the generic
lost-connection error (through `chat_getc`) instead of returning false; only
a successfully read mismatching byte is recoverable. -/
theorem expect_maybe_eof_fatal (e : Nat) (o : List Nat) :
    chat_expect_maybe ⟨[], o⟩ e = .error .lostConnection := rfl

/-- Claim C10: the CSI argument is accumulated as 32-bit unsigned machine
arithmetic, `arg = (10 * arg + digit) % 2^32`; consequently the digit string
"4294967301", whose value is congruent to 5 but not equal to 5, followed by
`n` elicits the "I am OK" reply exactly as the argument 5 would. -/
theorem csi_arg_unsigned_wraparound :
    (∀ (st : ScanSt) (c : Nat), st.state = .afterCsi → 48 ≤ c → c ≤ 57 →
        scan_step st c = some { st with arg := (10 * st.arg + (c - 48)) % 2 ^ 32 }) ∧
    chat_swallow_prompt
        ⟨[27, 91, 52, 50, 57, 52, 57, 54, 55, 51, 48, 49, 110, 36, 32], []⟩ =
      .ok ⟨[], [27, 91, 48, 110]⟩ ∧
    ((4294967301 : Nat) % 2 ^ 32 = 5 ∧ (4294967301 : Nat) ≠ 5) := by
  refine ⟨fun st c hst h48 h57 => ?_, by rfl, by decide, by decide⟩
  have hnp : ¬(c = 35 ∨ c = 36) := by omega
  simp [scan_step, hst, hnp, h48, h57]

/-- Witness for C10: one accumulation step, digit 5 after argument 7. -/
theorem csi_arg_unsigned_wraparound_witness :
    scan_step ⟨.afterCsi, 7, [], []⟩ 53 = some ⟨.afterCsi, 75, [], []⟩ :=
  (csi_arg_unsigned_wraparound.1 ⟨.afterCsi, 7, [], []⟩ 53 rfl
    (by decide) (by decide)).trans (by rfl)

end FbAdbChat
